import Mathlib

/-!
Shallow embedding of the extraction-result orchestration and edit-state core of
the `frontend-PDF-extraction` browser client.

The embedding covers:
* the quoted-field tabular text parser (`parseCsvContent` / `parseRow` in
  `src/app/api/client.ts`),
* the extraction orchestrator (`processFile` in `src/app/api/client.ts`
  together with `handleFileUpload` in `App.tsx`),
* the edit-state model (`handleSaveMarkdown` / `handleSaveCsv` in `App.tsx`,
  the `csvVersion` counter and `handleTransformCsv` in `ResultsPanel.tsx`,
  and the effective-value reads in `MarkdownViewer.tsx` / `CsvViewer.tsx`).

JavaScript strings are modelled by `String`; JS `Array` by `List`; absent
(`undefined`) optional fields by `Option`; a rejected `Promise` / thrown
exception by `Except String`.  JS-specific primitives (`String.prototype.trim`,
`String.prototype.split`, truthiness of `a || b`, `Array.prototype.slice`) are
embedded explicitly below so that their exact JS semantics — in particular the
falsiness of the empty string and the fact that `"".split(sep)` is `[""]` —
are preserved.
-/

namespace PdfExtract

/-- The double-quote character, written via its code point. -/
def dquote : Char := Char.ofNat 34

/-- The whitespace test used by the embedded `trim` (space, tab, CR, LF —
the ASCII fragment of the character class trimmed by JS `String.prototype.trim`). -/
def isWs (c : Char) : Bool := c.isWhitespace

/-- Character-list model of JS `String.prototype.trim`: drop leading and
trailing whitespace. -/
def trimChars (l : List Char) : List Char :=
  (((l.dropWhile isWs).reverse.dropWhile isWs).reverse)

/-- JS `s.trim()`. -/
def jsTrim (s : String) : String := String.mk (trimChars s.data)

/-- JS `s.split(sep)` on a character class: split at every separator
character, separators not included; the empty string splits to `[""]`,
matching JS. -/
def splitChars (p : Char → Bool) : List Char → List (List Char)
  | [] => [[]]
  | c :: rest =>
    if p c then [] :: splitChars p rest
    else
      match splitChars p rest with
      | [] => [[c]]
      | cur :: others => (c :: cur) :: others

/-- JS `a || b` for `a : string | undefined`: falls back to `b` when `a` is
`undefined` or the empty string (the only falsy string). -/
def jsOrStr (a : Option String) (b : String) : String :=
  match a with
  | some s => if s = "" then b else s
  | none => b

/-- JS `a || b` for an optional array `a`: every array (even `[]`) is truthy,
so only `undefined` falls back. -/
def jsOrList (a : Option (List α)) (b : List α) : List α :=
  a.getD b

/-- `filePath.split(/[/\\]/).pop() || filePath` from `processFile`
(`src/app/api/client.ts`): last path segment, or the whole path when that
segment is the (falsy) empty string. -/
def basename (filePath : String) : String :=
  let parts := splitChars (fun c => c = '/' || c = '\\') filePath.data
  match parts.getLast? with
  | some seg => if seg.isEmpty then filePath else String.mk seg
  | none => filePath

/-! ## Tabular text parser (`parseCsvContent` in `src/app/api/client.ts`) -/

/-- The character loop of `parseRow`: left-to-right scan with accumulator
`result` (fields emitted so far), `current` (field buffer) and the boolean
quote state `inQuotes`.  A `"` toggles the state, a `,` outside quotes emits
the trimmed buffer, any other character is appended; at end of line the
buffer is emitted as the final field. -/
def parseRowAux : List Char → List String → String → Bool → List String
  | [], result, current, _inQuotes => result ++ [jsTrim current]
  | c :: rest, result, current, inQuotes =>
    if c = dquote then
      parseRowAux rest result current (!inQuotes)
    else if c = ',' && !inQuotes then
      parseRowAux rest (result ++ [jsTrim current]) "" false
    else
      parseRowAux rest result (current.push c) inQuotes

/-- `parseRow` from `parseCsvContent`: split one line into fields. -/
def parseRow (line : String) : List String :=
  parseRowAux line.data [] "" false

/-- Result shape of `parseCsvContent`: `{ headers, data }`. -/
structure ParsedCsv where
  headers : List String
  data : List (List String)
deriving DecidableEq, Repr

/-- `parseCsvContent` from `src/app/api/client.ts`: trim the input, split it
into lines at `'\n'`, parse the first line as the header row and every
remaining line as a data row.  The source's `if (lines.length === 0)` guard
is the (unreachable, since `split` never yields an empty array) `[]` case. -/
def parseCsvContent (csvContent : String) : ParsedCsv :=
  let lines := (splitChars (fun c => c = '\n') (jsTrim csvContent).data).map String.mk
  match lines with
  | [] => { headers := [], data := [] }
  | first :: rest => { headers := parseRow first, data := rest.map parseRow }

/-! ## Data model (`src/types.ts`) -/

/-- `ProcessedFile.status`. -/
inductive FileStatus where
  | processing
  | completed
  | error
deriving DecidableEq, Repr

/-- `MarkdownFile` from `src/types.ts`: the text artifact with its optional
edited override. -/
structure MarkdownFile where
  content : String
  filename : String
  editedContent : Option String := none
deriving DecidableEq, Repr

/-- `CsvFile` from `src/types.ts` (with the `editedHeaders` field used by
`App.tsx` and `CsvViewer.tsx`): one table artifact with its optional edited
overrides. -/
structure CsvFile where
  id : String
  filename : String
  data : List (List String)
  headers : List String
  editedData : Option (List (List String)) := none
  editedHeaders : Option (List String) := none
deriving DecidableEq, Repr

/-- `ProcessedFile` from `src/types.ts` (fields not read by the embedded
workflow — `type`, `uploadedAt` — are omitted). -/
structure ProcessedFile where
  id : String
  name : String
  status : FileStatus
  markdown : Option MarkdownFile := none
  csvFiles : Option (List CsvFile) := none
deriving DecidableEq, Repr

/-! ## Remote interface shapes (`src/app/api/client.ts`) -/

/-- `/upload` response (fields not read by the embedded workflow omitted). -/
structure UploadResponse where
  status : String
  filename : String
  merged_path : String
deriving DecidableEq, Repr

/-- `/filter_tables` response (fields not read by the embedded workflow
omitted). -/
structure TableExtractionResponse where
  status : String
  document : String
  tables_count : Nat
  excel_files : List String
deriving DecidableEq, Repr

/-- `CsvFileData` from `src/app/api/client.ts`. -/
structure CsvFileData where
  filename : String
  data : List (List String)
  headers : List String
deriving DecidableEq, Repr

/-- `ExtractionResult` from `src/app/api/client.ts` (`markdown` inlined as
two fields). -/
structure ExtractionResult where
  markdownContent : String
  markdownFilename : String
  csv_files : List CsvFileData
  document_name : String
deriving DecidableEq, Repr

/-- The remote extraction service as seen by one `processFile` run: the
outcome of each endpoint call.  `downloadMarkdown`/`filterTables` take the
document name, `downloadTable` the document name and table filename; an
`Except.error` is a rejected promise. -/
structure RemoteApi where
  uploadFile : Except String UploadResponse
  downloadMarkdown : String → Except String String
  filterTables : String → Except String TableExtractionResponse
  downloadTable : String → String → Except String String

/-! ## `Promise.all` -/

/-- Collect a buffer of per-index results: `some` of the list iff every slot
was filled. -/
def collectSome : List (Option α) → Option (List α)
  | [] => some []
  | none :: _ => none
  | some a :: rest => (collectSome rest).map (a :: ·)

/-- One settlement event of `Promise.all`: when task `i` resolves, its value
is stored at index `i` of the result buffer (out-of-range or rejected tasks
leave the buffer unchanged). -/
def promiseStep (tasks : List (Except String α)) (buf : List (Option α)) (i : Nat) :
    List (Option α) :=
  match tasks[i]? with
  | some (Except.ok v) => buf.set i (some v)
  | _ => buf

/-- `Promise.all tasks`, run under a completion schedule `arrival` (the order
in which the pending tasks settle).  Each task writes its value at its own
index as it settles, so the fulfilled array is indexed by request position,
never by arrival order; the promise fulfills iff every slot was filled (all
tasks resolved).  The rejection value is never inspected by the callers in
this codebase. -/
def promiseAll (tasks : List (Except String α)) (arrival : List Nat) :
    Except String (List α) :=
  match collectSome (arrival.foldl (promiseStep tasks) (List.replicate tasks.length none)) with
  | some vs => Except.ok vs
  | none => Except.error "Promise.all rejected"

/-! ## Extraction orchestrator (`processFile` in `src/app/api/client.ts`) -/

/-- The body of the `tableResult.excel_files.map(async ...)` callback: derive
the table filename from the path, download the table text, and parse it. -/
def mkCsvTask (api : RemoteApi) (documentName filePath : String) :
    Except String CsvFileData :=
  let filename := basename filePath
  (api.downloadTable documentName filename).map fun csvContent =>
    let parsed := parseCsvContent csvContent
    { filename := filename, headers := parsed.headers, data := parsed.data }

/-- `processFile` from `src/app/api/client.ts`: upload, download the
generated markdown (both mandatory — their failures propagate), then run the
optional table phase inside `try`/`catch`: request table extraction and, if
any table files were reported, download and parse all of them with
`Promise.all`; any failure in the phase is caught and leaves `csvFiles`
at its initial `[]`. -/
def processFile (api : RemoteApi) (arrival : List Nat) :
    Except String ExtractionResult :=
  match api.uploadFile with
  | Except.error e => Except.error e
  | Except.ok uploadResult =>
    let documentName := uploadResult.merged_path
    match api.downloadMarkdown documentName with
    | Except.error e => Except.error e
    | Except.ok markdownContent =>
      let csvFiles : List CsvFileData :=
        match api.filterTables documentName with
        | Except.error _ => []
        | Except.ok tableResult =>
          if tableResult.excel_files.length > 0 then
            match promiseAll (tableResult.excel_files.map (mkCsvTask api documentName)) arrival with
            | Except.ok files => files
            | Except.error _ => []
          else []
      Except.ok
        { markdownContent := markdownContent
          markdownFilename := documentName ++ ".md"
          csv_files := csvFiles
          document_name := documentName }

/-- One remote call of the workflow, for the call trace. -/
inductive Step where
  | upload
  | downloadMarkdown
  | filterTables
  | downloadTable (filename : String)
deriving DecidableEq, Repr

/-- The sequence of remote calls `processFile` performs, read off the same
control flow: each mandatory step stops the workflow on failure, the table
phase is attempted only after both succeed, and the per-table downloads are
issued only when table extraction succeeded with a non-empty file list. -/
def processFileSteps (api : RemoteApi) : List Step :=
  match api.uploadFile with
  | Except.error _ => [Step.upload]
  | Except.ok uploadResult =>
    let documentName := uploadResult.merged_path
    match api.downloadMarkdown documentName with
    | Except.error _ => [Step.upload, Step.downloadMarkdown]
    | Except.ok _ =>
      match api.filterTables documentName with
      | Except.error _ => [Step.upload, Step.downloadMarkdown, Step.filterTables]
      | Except.ok tableResult =>
        if tableResult.excel_files.length > 0 then
          [Step.upload, Step.downloadMarkdown, Step.filterTables] ++
            tableResult.excel_files.map (fun fp => Step.downloadTable (basename fp))
        else [Step.upload, Step.downloadMarkdown, Step.filterTables]

/-! ## Upload handler (`handleFileUpload` in `App.tsx`) -/

/-- The `processingFile` value created at upload time. -/
def mkProcessingFile (id name : String) : ProcessedFile :=
  { id := id, name := name, status := FileStatus.processing,
    markdown := none, csvFiles := none }

/-- The `completedFile` built from a successful `processFile` result:
status `completed`, the markdown artifact, and one `CsvFile` per parsed
table with positional id `csv-{idx}`. -/
def completeFile (processingFile : ProcessedFile) (result : ExtractionResult) :
    ProcessedFile :=
  { processingFile with
    status := FileStatus.completed
    markdown := some
      { content := result.markdownContent
        filename := result.markdownFilename
        editedContent := none }
    csvFiles := some (result.csv_files.enum.map fun p =>
      { id := "csv-" ++ toString p.1
        filename := p.2.filename
        data := p.2.data
        headers := p.2.headers
        editedData := none
        editedHeaders := none }) }

/-- `handleFileUpload` from `App.tsx` (its state-relevant core): run
`processFile`; on success set the completed file, on any thrown error set
the processing file's status to `error` (leaving it without artifacts). -/
def handleFileUpload (api : RemoteApi) (arrival : List Nat) (id name : String) :
    ProcessedFile :=
  let processingFile := mkProcessingFile id name
  match processFile api arrival with
  | Except.ok result => completeFile processingFile result
  | Except.error _ => { processingFile with status := FileStatus.error }

/-! ## Edit-state model (`App.tsx`, `ResultsPanel.tsx`, viewers) -/

/-- `MarkdownViewer.tsx`'s `displayContent` (also the export path in
`ResultsPanel.tsx`): `markdown.editedContent || markdown.content`. -/
def displayContent (md : MarkdownFile) : String :=
  jsOrStr md.editedContent md.content

/-- `CsvViewer.tsx`'s non-editing `displayHeaders`:
`csv.editedHeaders || csv.headers`. -/
def displayHeaders (csv : CsvFile) : List String :=
  jsOrList csv.editedHeaders csv.headers

/-- `CsvViewer.tsx`'s non-editing `displayData`: `csv.editedData || csv.data`. -/
def displayData (csv : CsvFile) : List (List String) :=
  jsOrList csv.editedData csv.data

/-- `file.csvFiles?.find(c => c.id === csvId)` as used by `ResultsPanel.tsx`. -/
def findCsv (file : ProcessedFile) (csvId : String) : Option CsvFile :=
  (jsOrList file.csvFiles []).find? (fun c => c.id == csvId)

/-- `handleSaveMarkdown` from `App.tsx`: replace the markdown override with
the saved content verbatim (no-op when there is no file or no markdown). -/
def handleSaveMarkdown (prev : Option ProcessedFile) (content : String) :
    Option ProcessedFile :=
  match prev with
  | none => none
  | some file =>
    match file.markdown with
    | none => some file
    | some md =>
      some { file with markdown := some { md with editedContent := some content } }

/-- The per-table update performed by `handleSaveCsv` in `App.tsx`: replace
both overrides as one pair, truncating the saved headers and each saved row
to the original header count (`slice(0, csv.headers.length)`). -/
def saveCsvEntry (csv : CsvFile) (headers : List String) (data : List (List String)) :
    CsvFile :=
  { csv with
    editedData := some (data.map fun row => row.take csv.headers.length)
    editedHeaders := some (headers.take csv.headers.length) }

/-- `handleSaveCsv` from `App.tsx`: apply `saveCsvEntry` to every table whose
id matches (no-op when there is no file or no table list). -/
def handleSaveCsv (prev : Option ProcessedFile) (csvId : String)
    (headers : List String) (data : List (List String)) : Option ProcessedFile :=
  match prev with
  | none => none
  | some file =>
    match file.csvFiles with
    | none => some file
    | some csvs =>
      some { file with csvFiles := some (csvs.map fun csv =>
        if csv.id == csvId then saveCsvEntry csv headers data else csv) }

/-- `handleTransformCsv` from `ResultsPanel.tsx`: await the transform
collaborator, then bump `csvVersion`; a rejection propagates before the bump,
leaving the counter unchanged.  Returns the new counter and the outcome
passed on to the caller. -/
def handleTransformCsv (outcome : Except String Unit) (csvVersion : Nat) :
    Nat × Except String Unit :=
  match outcome with
  | Except.ok _ => (csvVersion + 1, Except.ok ())
  | Except.error e => (csvVersion, Except.error e)

/-- `handleTransform` from `CsvViewer.tsx`: catch a rejected transform and
record its message in `transformError` (reset to `none` on entry); the
`finally` clears `isTransforming`.  Returns `(transformError, isTransforming)`
after the call completes. -/
def handleTransform (outcome : Except String Unit) : Option String × Bool :=
  match outcome with
  | Except.ok _ => (none, false)
  | Except.error e => (some e, false)

/-- One edit-state operation on a completed document, as wired through
`ResultsPanel.tsx`: a markdown save, a table save, or a transform whose
collaborator outcome is given. -/
inductive EditOp where
  | saveText (content : String)
  | saveTable (csvId : String) (headers : List String) (rows : List (List String))
  | transformTable (outcome : Except String Unit)
deriving Repr

/-- The combined document/counter state transition of one operation:
`onSaveMarkdown` is passed straight to the viewer (no counter bump);
`ResultsPanel.handleSaveCsv` calls `onSaveCsv` then bumps `csvVersion`;
`ResultsPanel.handleTransformCsv` bumps `csvVersion` only after the
collaborator resolves (and no handler wired in the sources mutates the
document on transform). -/
def panelStep (s : Option ProcessedFile × Nat) (op : EditOp) :
    Option ProcessedFile × Nat :=
  match op with
  | EditOp.saveText content => (handleSaveMarkdown s.1 content, s.2)
  | EditOp.saveTable csvId headers rows => (handleSaveCsv s.1 csvId headers rows, s.2 + 1)
  | EditOp.transformTable outcome => (s.1, (handleTransformCsv outcome s.2).1)

/-! ## Helper lemmas -/

theorem mem_trimChars {a : Char} {l : List Char} (h : a ∈ trimChars l) : a ∈ l := by
  unfold trimChars at h
  rw [List.mem_reverse] at h
  have h1 : a ∈ (l.dropWhile isWs).reverse := (List.dropWhile_sublist _).mem h
  rw [List.mem_reverse] at h1
  exact (List.dropWhile_sublist _).mem h1

theorem no_quote_jsTrim {s : String} (h : dquote ∉ s.data) : dquote ∉ (jsTrim s).data :=
  fun hm => h (mem_trimChars hm)

theorem collectSome_map_some (l : List α) : collectSome (l.map some) = some l := by
  induction l with
  | nil => rfl
  | cons a rest ih => simp [collectSome, ih]

theorem promiseStep_length (tasks : List (Except String α)) (buf : List (Option α))
    (i : Nat) : (promiseStep tasks buf i).length = buf.length := by
  unfold promiseStep
  cases h : tasks[i]? with
  | none => rfl
  | some x =>
    cases x with
    | error e => rfl
    | ok v => simp

theorem foldl_promiseStep_length (tasks : List (Except String α)) (arrival : List Nat) :
    ∀ buf : List (Option α),
      (arrival.foldl (promiseStep tasks) buf).length = buf.length := by
  induction arrival with
  | nil => intro buf; rfl
  | cons i rest ih =>
    intro buf
    rw [List.foldl_cons, ih, promiseStep_length]

theorem foldl_promiseStep_not_mem (tasks : List (Except String α)) {j : Nat}
    {arrival : List Nat} (hj : j ∉ arrival) :
    ∀ buf : List (Option α),
      (arrival.foldl (promiseStep tasks) buf)[j]? = buf[j]? := by
  induction arrival with
  | nil => intro buf; rfl
  | cons i rest ih =>
    intro buf
    have hji : j ≠ i := fun h => hj (h ▸ List.mem_cons_self i rest)
    have hjr : j ∉ rest := fun h => hj (List.mem_cons_of_mem i h)
    rw [List.foldl_cons, ih hjr]
    unfold promiseStep
    cases htask : tasks[i]? with
    | none => rfl
    | some x =>
      cases x with
      | error e => rfl
      | ok v => exact List.getElem?_set_ne hji.symm

theorem foldl_promiseStep_filled (tasks : List (Except String α)) (val : Nat → α)
    (hval : ∀ i, i < tasks.length → tasks[i]? = some (Except.ok (val i))) :
    ∀ (arrival : List Nat) (buf : List (Option α)), buf.length = tasks.length →
      ∀ j, j < tasks.length → j ∈ arrival →
        (arrival.foldl (promiseStep tasks) buf)[j]? = some (some (val j)) := by
  intro arrival
  induction arrival with
  | nil =>
    intro buf hbuf j hj hmem
    exact absurd hmem (List.not_mem_nil j)
  | cons i rest ih =>
    intro buf hbuf j hj hmem
    rw [List.foldl_cons]
    by_cases hjr : j ∈ rest
    · exact ih (promiseStep tasks buf i) (by rw [promiseStep_length, hbuf]) j hj hjr
    · have hji : j = i := by
        rcases List.mem_cons.mp hmem with h | h
        · exact h
        · exact absurd h hjr
      subst hji
      rw [foldl_promiseStep_not_mem tasks hjr]
      unfold promiseStep
      rw [hval j hj]
      exact List.getElem?_set_eq_of_lt _ (hbuf ▸ hj)

theorem promiseAll_ok (tasks : List (Except String α)) (val : Nat → α)
    (hval : ∀ i, i < tasks.length → tasks[i]? = some (Except.ok (val i)))
    (arrival : List Nat) (harr : ∀ j, j < tasks.length → j ∈ arrival) :
    promiseAll tasks arrival = Except.ok ((List.range tasks.length).map val) := by
  unfold promiseAll
  have hbuf : arrival.foldl (promiseStep tasks) (List.replicate tasks.length none) =
      ((List.range tasks.length).map val).map some := by
    apply List.ext_getElem?
    intro j
    by_cases hj : j < tasks.length
    · rw [foldl_promiseStep_filled tasks val hval arrival _ (List.length_replicate ..) j hj
        (harr j hj)]
      simp [List.getElem?_range hj]
    · have hlen : (arrival.foldl (promiseStep tasks) (List.replicate tasks.length none)).length
          = tasks.length := by
        rw [foldl_promiseStep_length, List.length_replicate]
      rw [List.getElem?_eq_none (by omega), List.getElem?_eq_none (by simp; omega)]
  rw [hbuf, collectSome_map_some]

theorem range_length_map_getD (g : β → α) (d : β) :
    ∀ l : List β, (List.range l.length).map (fun i => g (l.getD i d)) = l.map g := by
  intro l
  induction l with
  | nil => rfl
  | cons x xs ih =>
    rw [List.length_cons, List.range_succ_eq_map, List.map_cons, List.map_map, List.map_cons]
    refine congrArg₂ _ (by simp) ?_
    rw [← ih]
    exact List.map_congr_left fun i _ => by simp [Function.comp]

theorem find?_map_saveCsvEntry (csvId : String) (H : List String)
    (R : List (List String)) :
    ∀ (l : List CsvFile) (csv : CsvFile),
      l.find? (fun c => c.id == csvId) = some csv →
      (l.map fun c => if c.id == csvId then saveCsvEntry c H R else c).find?
        (fun c => c.id == csvId) = some (saveCsvEntry csv H R) := by
  intro l
  induction l with
  | nil => intro csv h; simp [List.find?] at h
  | cons a rest ih =>
    intro csv h
    by_cases ha : (a.id == csvId) = true
    · simp only [List.find?_cons, ha, Option.some_inj] at h
      subst h
      simp only [List.map_cons, List.find?_cons, ha, if_true]
      simp [show ((saveCsvEntry a H R).id == csvId) = true from ha]
    · have hfa : (a.id == csvId) = false := by simpa using ha
      simp only [List.find?_cons, hfa] at h
      rw [List.map_cons, if_neg (show ¬((a.id == csvId) = true) by simp [hfa]),
        List.find?_cons, hfa]
      exact ih csv h

theorem parseRowAux_no_quote :
    ∀ (cs : List Char) (res : List String) (cur : String) (b : Bool),
      (∀ f ∈ res, dquote ∉ f.data) → dquote ∉ cur.data →
      ∀ f ∈ parseRowAux cs res cur b, dquote ∉ f.data := by
  intro cs
  induction cs with
  | nil =>
    intro res cur b hres hcur f hf
    simp only [parseRowAux] at hf
    rcases List.mem_append.mp hf with h | h
    · exact hres f h
    · rw [List.mem_singleton] at h
      subst h
      exact no_quote_jsTrim hcur
  | cons c rest ih =>
    intro res cur b hres hcur f hf
    simp only [parseRowAux] at hf
    by_cases hc : c = dquote
    · rw [if_pos hc] at hf
      exact ih res cur (!b) hres hcur f hf
    · rw [if_neg hc] at hf
      by_cases hcb : (decide (c = ',') && !b) = true
      · rw [if_pos hcb] at hf
        refine ih _ "" false ?_ (by simp) f hf
        intro g hg
        rcases List.mem_append.mp hg with h | h
        · exact hres g h
        · rw [List.mem_singleton] at h
          subst h
          exact no_quote_jsTrim hcur
      · rw [if_neg hcb] at hf
        refine ih res (cur.push c) b hres ?_ f hf
        intro hm
        have hpush : (cur.push c).data = cur.data ++ [c] := rfl
        rw [hpush] at hm
        rcases List.mem_append.mp hm with h | h
        · exact hcur h
        · rw [List.mem_singleton] at h
          exact hc h.symm

theorem panelStep_version_le (s : Option ProcessedFile × Nat) (op : EditOp) :
    s.2 ≤ (panelStep s op).2 := by
  cases op with
  | saveText c => exact Nat.le_refl _
  | saveTable csvId H R => exact Nat.le_succ _
  | transformTable outcome =>
    cases outcome with
    | error e => exact Nat.le_refl _
    | ok u => exact Nat.le_succ _

theorem foldl_panelStep_version_le (ops : List EditOp) :
    ∀ s : Option ProcessedFile × Nat, s.2 ≤ (ops.foldl panelStep s).2 := by
  induction ops with
  | nil => intro s; exact Nat.le_refl _
  | cons op rest ih =>
    intro s
    exact Nat.le_trans (panelStep_version_le s op) (ih (panelStep s op))

theorem processFile_tables_ok (api : RemoteApi) (up : UploadResponse)
    (mdContent : String) (tr : TableExtractionResponse) (fetch : String → String)
    (arrival : List Nat)
    (h1 : api.uploadFile = Except.ok up)
    (h2 : api.downloadMarkdown up.merged_path = Except.ok mdContent)
    (h3 : api.filterTables up.merged_path = Except.ok tr)
    (h4 : ∀ fp ∈ tr.excel_files,
      api.downloadTable up.merged_path (basename fp) = Except.ok (fetch fp))
    (h5 : ∀ j, j < tr.excel_files.length → j ∈ arrival) :
    processFile api arrival = Except.ok
      { markdownContent := mdContent
        markdownFilename := up.merged_path ++ ".md"
        csv_files := tr.excel_files.map fun fp =>
          { filename := basename fp
            headers := (parseCsvContent (fetch fp)).headers
            data := (parseCsvContent (fetch fp)).data }
        document_name := up.merged_path } := by
  have hlen : (tr.excel_files.map (mkCsvTask api up.merged_path)).length =
      tr.excel_files.length := List.length_map _ _
  have hval : ∀ i, i < (tr.excel_files.map (mkCsvTask api up.merged_path)).length →
      (tr.excel_files.map (mkCsvTask api up.merged_path))[i]? =
        some (Except.ok
          ({ filename := basename (tr.excel_files.getD i "")
             headers := (parseCsvContent (fetch (tr.excel_files.getD i ""))).headers
             data := (parseCsvContent (fetch (tr.excel_files.getD i ""))).data } :
            CsvFileData)) := by
    intro i hi
    rw [hlen] at hi
    rw [List.getElem?_map, List.getElem?_eq_getElem hi, List.getD_eq_getElem _ _ hi]
    have hmem : tr.excel_files[i] ∈ tr.excel_files := List.getElem_mem hi
    simp [mkCsvTask, h4 _ hmem, Except.map]
  have hpa := promiseAll_ok (tr.excel_files.map (mkCsvTask api up.merged_path))
    (fun i =>
      ({ filename := basename (tr.excel_files.getD i "")
         headers := (parseCsvContent (fetch (tr.excel_files.getD i ""))).headers
         data := (parseCsvContent (fetch (tr.excel_files.getD i ""))).data } :
        CsvFileData))
    hval arrival (by rw [hlen]; exact h5)
  rw [hlen] at hpa
  rw [range_length_map_getD
    (fun fp => ({ filename := basename fp
                  headers := (parseCsvContent (fetch fp)).headers
                  data := (parseCsvContent (fetch fp)).data } : CsvFileData)) ""
    tr.excel_files] at hpa
  by_cases hfs : tr.excel_files.length > 0
  · simp [processFile, h1, h2, h3, hfs, hpa]
  · have hnil : tr.excel_files = [] := List.length_eq_zero.mp (by omega)
    simp [processFile, h1, h2, h3, hnil]

/-! ## Claims -/

/-- C2: the claim says the parser maps every empty or whitespace-only input to
`{headers := [], data := []}` — and the source's own `lines.length === 0`
guard shows this was the intent — but JS `"".split('\n')` is `[""]`, so the
guard never fires and the code instead returns `{headers := [""], data := []}`
on the empty string (and on every whitespace-only string, which trims to the
empty string). -/
theorem c2_empty_input_not_empty_headers :
    parseCsvContent "" = { headers := [""], data := [] } ∧
    parseCsvContent " " = { headers := [""], data := [] } ∧
    parseCsvContent "\t\n " = { headers := [""], data := [] } ∧
    ({ headers := [""], data := [] } : ParsedCsv) ≠ { headers := [], data := [] } :=
  ⟨by decide, by decide, by decide, by decide⟩

/-- C9: the field splitter scans left to right with a boolean quote state — a
comma met outside quotes emits the buffered field, a comma met inside quotes
is appended to the buffer — and therefore the line `a,"b,c",d` parses to
exactly the three fields `a`, `b,c`, `d`. -/
theorem c9_quote_state_splitting :
    (∀ (rest : List Char) (result : List String) (current : String),
      parseRowAux (',' :: rest) result current false =
        parseRowAux rest (result ++ [jsTrim current]) "" false) ∧
    (∀ (rest : List Char) (result : List String) (current : String),
      parseRowAux (',' :: rest) result current true =
        parseRowAux rest result (current.push ',') true) ∧
    parseRow "a,\"b,c\",d" = ["a", "b,c", "d"] :=
  ⟨fun _ _ _ => rfl, fun _ _ _ => rfl, by decide⟩

/-- C10 (implicit): no field the parser emits ever contains a double-quote
character — every `"` is consumed as a quote-state toggle and never appended
to the field buffer — so `"b,c"` parses to the unquoted field `b,c` and a
doubled `""` contributes nothing to the field text. -/
theorem c10_fields_never_contain_quote :
    (∀ (line : String) (f : String), f ∈ parseRow line → dquote ∉ f.data) ∧
    parseRow "\"b,c\"" = ["b,c"] ∧
    parseRow "a\"\"b" = parseRow "ab" := by
  refine ⟨?_, by decide, by decide⟩
  intro line f hf
  exact parseRowAux_no_quote line.data [] "" false (by simp) (by simp) f hf

/-- Closed witness for C10 at the line `x"y",z` and its first field `xy`. -/
theorem c10_fields_never_contain_quote_witness :
    ("xy" ∈ parseRow "x\"y\",z") ∧ dquote ∉ ("xy" : String).data :=
  ⟨by decide, c10_fields_never_contain_quote.1 "x\"y\",z" "xy" (by decide)⟩

/-- C7: a failed `transformTable` leaves the document and the version counter
exactly as they were, and the failure message is surfaced to the caller
(recorded as the viewer's `transformError`). -/
theorem c7_transform_failure_leaves_state (doc : Option ProcessedFile) (v : Nat)
    (e : String) :
    panelStep (doc, v) (EditOp.transformTable (Except.error e)) = (doc, v) ∧
    (handleTransformCsv (Except.error e) v).1 = v ∧
    handleTransform (handleTransformCsv (Except.error e) v).2 = (some e, false) :=
  ⟨rfl, rfl, rfl⟩

/-- Counterexample to C8 as stated: a successful `saveText` stores the new
override but leaves the version counter at 0 instead of incrementing it
to 1. -/
theorem c8_counterexample :
    panelStep
        (some { id := "f", name := "n", status := FileStatus.completed,
                markdown := some { content := "orig", filename := "d.md" },
                csvFiles := some [] }, 0)
        (EditOp.saveText "new") =
      (some { id := "f", name := "n", status := FileStatus.completed,
              markdown := some { content := "orig", filename := "d.md",
                                 editedContent := some "new" },
              csvFiles := some [] }, 0) ∧
    (0 : Nat) ≠ 1 :=
  ⟨by decide, by decide⟩

/-- C8 (amended): the version counter is monotonically non-decreasing over
every sequence of operations and increments by one on every `saveTable` and
every successful `transformTable`; a `saveText` (and a failed transform)
leaves it unchanged — the code never bumps the counter on a markdown save. -/
theorem c8_version_counter_amended :
    (∀ (s : Option ProcessedFile × Nat) (ops : List EditOp),
      s.2 ≤ (ops.foldl panelStep s).2) ∧
    (∀ (doc : Option ProcessedFile) (v : Nat) (csvId : String) (H : List String)
      (R : List (List String)),
      (panelStep (doc, v) (EditOp.saveTable csvId H R)).2 = v + 1) ∧
    (∀ (doc : Option ProcessedFile) (v : Nat),
      (panelStep (doc, v) (EditOp.transformTable (Except.ok ()))).2 = v + 1) ∧
    (∀ (doc : Option ProcessedFile) (v : Nat) (e : String),
      (panelStep (doc, v) (EditOp.transformTable (Except.error e))).2 = v) ∧
    (∀ (doc : Option ProcessedFile) (v : Nat) (c : String),
      (panelStep (doc, v) (EditOp.saveText c)).2 = v) :=
  ⟨fun s ops => foldl_panelStep_version_le ops s,
   fun _ _ _ _ _ => rfl, fun _ _ => rfl, fun _ _ _ => rfl, fun _ _ _ => rfl⟩

/-- Counterexample to C3 as stated: saving the empty string stores the
override `some ""`, but the effective content read back falls to the original
(`"orig"`), not to the saved `""`, because the reads use JS `||` and the
empty string is falsy. -/
theorem c3_counterexample :
    ((handleSaveMarkdown
        (some { id := "f", name := "n", status := FileStatus.completed,
                markdown := some { content := "orig", filename := "d.md" },
                csvFiles := some [] }) "").bind
      (fun f => f.markdown)).map displayContent = some "orig" ∧
    some "orig" ≠ some ("" : String) :=
  ⟨by decide, by decide⟩

/-- C3 (amended): `saveText c` stores the override `some c` verbatim without
touching the original, and the effective content is `override || original`:
it equals `c` for every non-empty `c`, and falls back to the original both
when no override was saved and when the saved override is the empty
string. -/
theorem c3_saveText_amended (pf : ProcessedFile) (md : MarkdownFile) (c : String)
    (hmd : pf.markdown = some md) :
    handleSaveMarkdown (some pf) c =
      some { pf with markdown := some { md with editedContent := some c } } ∧
    ({ md with editedContent := some c } : MarkdownFile).editedContent = some c ∧
    ({ md with editedContent := some c } : MarkdownFile).content = md.content ∧
    (c ≠ "" → displayContent { md with editedContent := some c } = c) ∧
    (c = "" → displayContent { md with editedContent := some c } = md.content) ∧
    (∀ m : MarkdownFile, m.editedContent = none → displayContent m = m.content) := by
  refine ⟨?_, rfl, rfl, ?_, ?_, ?_⟩
  · simp [handleSaveMarkdown, hmd]
  · intro hc
    simp [displayContent, jsOrStr, hc]
  · intro hc
    subst hc
    simp [displayContent, jsOrStr]
  · intro m hm
    simp [displayContent, jsOrStr, hm]

/-- C5: when the generated-text fetch fails, `processFile` propagates the
error, the call trace stops after the two mandatory steps (table extraction
and table downloads are never attempted), and the resulting document has
status `error` with no markdown artifact and no table artifacts. -/
theorem c5_text_fetch_failure_is_fatal (api : RemoteApi) (up : UploadResponse)
    (e : String)
    (h1 : api.uploadFile = Except.ok up)
    (h2 : api.downloadMarkdown up.merged_path = Except.error e) :
    (∀ arrival, processFile api arrival = Except.error e) ∧
    processFileSteps api = [Step.upload, Step.downloadMarkdown] ∧
    Step.filterTables ∉ processFileSteps api ∧
    (∀ f, Step.downloadTable f ∉ processFileSteps api) ∧
    (∀ (arrival : List Nat) (id name : String),
      handleFileUpload api arrival id name =
        { id := id, name := name, status := FileStatus.error,
          markdown := none, csvFiles := none }) := by
  have hsteps : processFileSteps api = [Step.upload, Step.downloadMarkdown] := by
    simp [processFileSteps, h1, h2]
  have hproc : ∀ arrival, processFile api arrival = Except.error e := by
    intro arrival
    simp [processFile, h1, h2]
  refine ⟨hproc, hsteps, ?_, ?_, ?_⟩
  · rw [hsteps]
    decide
  · intro f
    rw [hsteps]
    simp
  · intro arrival id name
    simp [handleFileUpload, hproc arrival, mkProcessingFile]

/-- Concrete remote service for the C5 witness: upload succeeds, the markdown
download fails, table extraction would have succeeded. -/
def c5Api : RemoteApi :=
  { uploadFile := Except.ok { status := "success", filename := "a.pdf",
                              merged_path := "docA" }
    downloadMarkdown := fun _ => Except.error "boom"
    filterTables := fun d => Except.ok { status := "success", document := d,
                                         tables_count := 1,
                                         excel_files := ["t.csv"] }
    downloadTable := fun _ _ => Except.ok "a,b\n1,2" }

/-- Closed witness for C5 on `c5Api`. -/
theorem c5_text_fetch_failure_is_fatal_witness :
    c5Api.uploadFile = Except.ok { status := "success", filename := "a.pdf",
                                   merged_path := "docA" } ∧
    c5Api.downloadMarkdown "docA" = Except.error "boom" ∧
    handleFileUpload c5Api [] "f1" "a.pdf" =
      { id := "f1", name := "a.pdf", status := FileStatus.error,
        markdown := none, csvFiles := none } :=
  ⟨rfl, rfl,
   (c5_text_fetch_failure_is_fatal c5Api _ "boom" rfl rfl).2.2.2.2 [] "f1" "a.pdf"⟩

/-- C6: when upload and generated-text fetch succeed but the table-extraction
request fails, the failure is caught inside `processFile` and the document
completes with the markdown artifact and exactly zero table artifacts. -/
theorem c6_table_extraction_failure_is_caught (api : RemoteApi)
    (up : UploadResponse) (mdContent e : String)
    (h1 : api.uploadFile = Except.ok up)
    (h2 : api.downloadMarkdown up.merged_path = Except.ok mdContent)
    (h3 : api.filterTables up.merged_path = Except.error e) :
    (∀ arrival, processFile api arrival = Except.ok
      { markdownContent := mdContent
        markdownFilename := up.merged_path ++ ".md"
        csv_files := []
        document_name := up.merged_path }) ∧
    (∀ (arrival : List Nat) (id name : String),
      (handleFileUpload api arrival id name).status = FileStatus.completed ∧
      (handleFileUpload api arrival id name).markdown =
        some { content := mdContent, filename := up.merged_path ++ ".md",
               editedContent := none } ∧
      (handleFileUpload api arrival id name).csvFiles = some []) := by
  have hproc : ∀ arrival, processFile api arrival = Except.ok
      { markdownContent := mdContent
        markdownFilename := up.merged_path ++ ".md"
        csv_files := []
        document_name := up.merged_path } := by
    intro arrival
    simp [processFile, h1, h2, h3]
  refine ⟨hproc, ?_⟩
  intro arrival id name
  refine ⟨?_, ?_, ?_⟩ <;>
    simp [handleFileUpload, hproc arrival, completeFile, mkProcessingFile]

/-- Concrete remote service for the C6 witness: mandatory steps succeed,
table extraction fails. -/
def c6Api : RemoteApi :=
  { uploadFile := Except.ok { status := "success", filename := "b.pdf",
                              merged_path := "docB" }
    downloadMarkdown := fun _ => Except.ok "# generated"
    filterTables := fun _ => Except.error "extraction failed"
    downloadTable := fun _ _ => Except.ok "a,b\n1,2" }

/-- Closed witness for C6 on `c6Api`. -/
theorem c6_table_extraction_failure_is_caught_witness :
    c6Api.uploadFile = Except.ok { status := "success", filename := "b.pdf",
                                   merged_path := "docB" } ∧
    c6Api.downloadMarkdown "docB" = Except.ok "# generated" ∧
    c6Api.filterTables "docB" = Except.error "extraction failed" ∧
    ((handleFileUpload c6Api [] "f2" "b.pdf").status = FileStatus.completed ∧
      (handleFileUpload c6Api [] "f2" "b.pdf").markdown =
        some { content := "# generated", filename := "docB" ++ ".md",
               editedContent := none } ∧
      (handleFileUpload c6Api [] "f2" "b.pdf").csvFiles = some []) :=
  ⟨rfl, rfl, rfl,
   (c6_table_extraction_failure_is_caught c6Api _ "# generated" "extraction failed"
      rfl rfl rfl).2 [] "f2" "b.pdf"⟩

/-- Counterexample to C4 as stated: the assembled table artifacts carry ids
`csv-{i}`, not `table-{i}` — with one extracted table the id is `csv-0`. -/
theorem c4_counterexample :
    ((handleFileUpload
        { uploadFile := Except.ok { status := "s", filename := "a.pdf",
                                    merged_path := "doc" }
          downloadMarkdown := fun _ => Except.ok "# md"
          filterTables := fun d => Except.ok { status := "s", document := d,
                                               tables_count := 1,
                                               excel_files := ["p/t1.csv"] }
          downloadTable := fun _ _ => Except.ok "a,b\n1,2" }
        [0] "f" "n").csvFiles.map fun L => L.map fun c => c.id) = some ["csv-0"] ∧
    some ["csv-0"] ≠ some ["table-0"] :=
  ⟨by decide, by decide⟩

/-- C4 (amended): however the pending table downloads settle (any completion
schedule that is a permutation of the request indices), the assembled table
artifact list is indexed by request position: the `i`-th artifact holds the
parse of the `i`-th requested table and carries the positional id `csv-{i}`
(the source uses the prefix `csv-`, not the `table-` of the claim). -/
theorem c4_positional_assembly_amended (api : RemoteApi) (up : UploadResponse)
    (mdContent : String) (tr : TableExtractionResponse) (fetch : String → String)
    (arrival : List Nat)
    (h1 : api.uploadFile = Except.ok up)
    (h2 : api.downloadMarkdown up.merged_path = Except.ok mdContent)
    (h3 : api.filterTables up.merged_path = Except.ok tr)
    (h4 : ∀ fp ∈ tr.excel_files,
      api.downloadTable up.merged_path (basename fp) = Except.ok (fetch fp))
    (h5 : arrival.Perm (List.range tr.excel_files.length)) (id name : String) :
    (handleFileUpload api arrival id name).status = FileStatus.completed ∧
    ((handleFileUpload api arrival id name).csvFiles.map List.length) =
      some tr.excel_files.length ∧
    (∀ (i : Nat) (fp : String), tr.excel_files[i]? = some fp →
      ((handleFileUpload api arrival id name).csvFiles.bind fun L => L[i]?) =
        some ({ id := "csv-" ++ toString i
                filename := basename fp
                data := (parseCsvContent (fetch fp)).data
                headers := (parseCsvContent (fetch fp)).headers
                editedData := none
                editedHeaders := none } : CsvFile)) := by
  have harr : ∀ j, j < tr.excel_files.length → j ∈ arrival := by
    intro j hj
    rw [h5.mem_iff]
    exact List.mem_range.mpr hj
  have hproc := processFile_tables_ok api up mdContent tr fetch arrival h1 h2 h3 h4 harr
  have hfile : handleFileUpload api arrival id name =
      completeFile (mkProcessingFile id name)
        { markdownContent := mdContent
          markdownFilename := up.merged_path ++ ".md"
          csv_files := tr.excel_files.map fun fp =>
            { filename := basename fp
              headers := (parseCsvContent (fetch fp)).headers
              data := (parseCsvContent (fetch fp)).data }
          document_name := up.merged_path } := by
    simp [handleFileUpload, hproc]
  refine ⟨by rw [hfile]; rfl, ?_, ?_⟩
  · rw [hfile]
    simp [completeFile, mkProcessingFile]
  · intro i fp hfp
    rw [hfile]
    simp only [completeFile, mkProcessingFile, Option.bind_some, Option.some_bind]
    rw [List.getElem?_map, List.getElem?_enum, List.getElem?_map, hfp]
    rfl

/-- Concrete remote service for the C4 witness: two tables whose downloads
settle out of request order (`arrival = [1, 0]`). -/
def c4Api : RemoteApi :=
  { uploadFile := Except.ok { status := "success", filename := "a.pdf",
                              merged_path := "doc" }
    downloadMarkdown := fun _ => Except.ok "# md"
    filterTables := fun d => Except.ok { status := "success", document := d,
                                         tables_count := 2,
                                         excel_files := ["p/t1.csv", "t2.csv"] }
    downloadTable := fun _ fn =>
      if fn = "t1.csv" then Except.ok "a,b\n1,2" else Except.ok "c,d\n3,4" }

/-- The per-path table text fetched by `c4Api`. -/
def c4Fetch : String → String := fun fp =>
  if fp = "p/t1.csv" then "a,b\n1,2" else "c,d\n3,4"

/-- Closed witness for C4 (amended): with the second table resolving first,
the artifacts still come back in request order with ids `csv-0`, `csv-1`. -/
theorem c4_positional_assembly_amended_witness :
    ([1, 0] : List Nat).Perm (List.range 2) ∧
    ((handleFileUpload c4Api [1, 0] "f" "n").csvFiles.bind fun L => L[0]?) =
      some { id := "csv-0", filename := "t1.csv",
             data := [["1", "2"]], headers := ["a", "b"],
             editedData := none, editedHeaders := none } ∧
    ((handleFileUpload c4Api [1, 0] "f" "n").csvFiles.bind fun L => L[1]?) =
      some { id := "csv-1", filename := "t2.csv",
             data := [["3", "4"]], headers := ["c", "d"],
             editedData := none, editedHeaders := none } := by
  refine ⟨by decide, ?_, ?_⟩
  · exact ((c4_positional_assembly_amended c4Api _ "# md" _ c4Fetch [1, 0]
      rfl rfl rfl (by intro fp hfp; fin_cases hfp <;> rfl) (by decide) "f" "n").2.2
      0 "p/t1.csv" (by decide)).trans (by decide)
  · exact ((c4_positional_assembly_amended c4Api _ "# md" _ c4Fetch [1, 0]
      rfl rfl rfl (by intro fp hfp; fin_cases hfp <;> rfl) (by decide) "f" "n").2.2
      1 "t2.csv" (by decide)).trans (by decide)

/-- Counterexample to C1 as stated: on a table whose original header count is
1, `saveTable` with the two headers `x, y` and the row `p, q` stores a
truncated override — the effective table reads back `([x], [[p]])`, not the
full `([x, y], [[p, q]])`. -/
theorem c1_counterexample :
    ((handleSaveCsv
        (some { id := "f", name := "n", status := FileStatus.completed,
                markdown := some { content := "m", filename := "d.md" },
                csvFiles := some [{ id := "csv-0", filename := "t.csv",
                                    data := [["1"]], headers := ["a"] }] })
        "csv-0" ["x", "y"] [["p", "q"]]).bind
      (fun f => (findCsv f "csv-0").map fun c => (displayHeaders c, displayData c)))
      = some (["x"], [["p"]]) ∧
    some ((["x"] : List String), ([["p"]] : List (List String))) ≠
      some (["x", "y"], [["p", "q"]]) :=
  ⟨by decide, by decide⟩

/-- C1 (amended): `saveTable(id, H, R)` replaces the table's override with the
pair `(H, R)` truncated to the original header count `n` (`slice(0, n)` on
the headers and on every row), leaving the original headers and rows
unchanged; the effective table read back is exactly `(H, R)` whenever `H` and
every row of `R` have length at most `n`. -/
theorem c1_saveTable_amended (file : ProcessedFile) (csv : CsvFile) (csvId : String)
    (H : List String) (R : List (List String))
    (hfind : findCsv file csvId = some csv) :
    ((handleSaveCsv (some file) csvId H R).bind fun f => findCsv f csvId) =
      some (saveCsvEntry csv H R) ∧
    (saveCsvEntry csv H R).headers = csv.headers ∧
    (saveCsvEntry csv H R).data = csv.data ∧
    displayHeaders (saveCsvEntry csv H R) = H.take csv.headers.length ∧
    displayData (saveCsvEntry csv H R) = R.map (fun r => r.take csv.headers.length) ∧
    (H.length ≤ csv.headers.length → displayHeaders (saveCsvEntry csv H R) = H) ∧
    ((∀ r ∈ R, r.length ≤ csv.headers.length) →
      displayData (saveCsvEntry csv H R) = R) := by
  have htake : displayHeaders (saveCsvEntry csv H R) = H.take csv.headers.length := rfl
  have hdata : displayData (saveCsvEntry csv H R) =
      R.map (fun r => r.take csv.headers.length) := rfl
  refine ⟨?_, rfl, rfl, htake, hdata, ?_, ?_⟩
  · cases hcs : file.csvFiles with
    | none =>
      rw [findCsv, hcs] at hfind
      simp [jsOrList] at hfind
    | some csvs =>
      have hfind' : csvs.find? (fun c => c.id == csvId) = some csv := by
        rw [findCsv, hcs] at hfind
        simpa [jsOrList] using hfind
      have hsave : handleSaveCsv (some file) csvId H R =
          some { file with csvFiles := some (csvs.map fun c =>
            if c.id == csvId then saveCsvEntry c H R else c) } := by
        simp [handleSaveCsv, hcs]
      rw [hsave, Option.some_bind, findCsv]
      simpa [jsOrList] using find?_map_saveCsvEntry csvId H R csvs csv hfind'
  · intro h
    rw [htake, List.take_of_length_le h]
  · intro h
    rw [hdata]
    have : ∀ r ∈ R, r.take csv.headers.length = (fun r => r) r :=
      fun r hr => List.take_of_length_le (h r hr)
    rw [List.map_congr_left this]
    exact List.map_id R

/-- The table used by the C1 witness. -/
def c1Csv : CsvFile :=
  { id := "csv-0", filename := "t.csv", data := [["1", "2"]], headers := ["a", "b"] }

/-- The completed document used by the C1 witness. -/
def c1File : ProcessedFile :=
  { id := "f", name := "n", status := FileStatus.completed,
    markdown := some { content := "m", filename := "d.md" },
    csvFiles := some [c1Csv] }

/-- Closed witness for C1 (amended): a save whose headers and rows fit the
original column count reads back exactly. -/
theorem c1_saveTable_amended_witness :
    findCsv c1File "csv-0" = some c1Csv ∧
    ((handleSaveCsv (some c1File) "csv-0" ["x", "y"] [["3", "4"]]).bind
        fun f => findCsv f "csv-0") =
      some (saveCsvEntry c1Csv ["x", "y"] [["3", "4"]]) ∧
    displayHeaders (saveCsvEntry c1Csv ["x", "y"] [["3", "4"]]) = ["x", "y"] :=
  ⟨by decide,
   (c1_saveTable_amended c1File c1Csv "csv-0" ["x", "y"] [["3", "4"]] (by decide)).1,
   (c1_saveTable_amended c1File c1Csv "csv-0" ["x", "y"] [["3", "4"]]
      (by decide)).2.2.2.2.2.1 (by decide)⟩

/-- Closed witness for C3 (amended): the markdown file `{content := "orig"}`
with the save `"new"`. -/
theorem c3_saveText_amended_witness :
    ({ id := "f", name := "n", status := FileStatus.completed,
       markdown := some { content := "orig", filename := "d.md" },
       csvFiles := some [] } : ProcessedFile).markdown =
      some { content := "orig", filename := "d.md" } ∧
    displayContent { content := "orig", filename := "d.md",
                     editedContent := some "new" } = "new" :=
  ⟨rfl,
   (c3_saveText_amended
      { id := "f", name := "n", status := FileStatus.completed,
        markdown := some { content := "orig", filename := "d.md" },
        csvFiles := some [] }
      { content := "orig", filename := "d.md" } "new" rfl).2.2.2.1 (by decide)⟩

end PdfExtract
